import Mathlib

/-!
Verification development for the interactive filter demo.

The matrix utilities (`src/utils/matrix.ts`, duplicated at the top of
`src/services/filterService.ts`) and the three filters of
`src/services/filterService.ts` are embedded shallowly:

* a JS `number[][]` matrix is a `List (List ℝ)`;
* out-of-range reads, which the source never performs on well-formed
  states, are modelled as reading `0` (`mget`);
* JS exceptions are modelled with `Except MatErr`;
* `Date.now()` is an explicit `now : ℝ` argument to each `apply`;
* each `apply` returns, next to the source's return value, the value of
  the caller's state object as observable after the call, because the
  source mutates matrices of its argument in place through the
  destructured aliases (`A[0][2] = dt`, `x[0][0] = measurement.x`, ...).
-/

open Classical

noncomputable section

abbrev Mat : Type := List (List ℝ)

/-- Read `A[i][j]`; JS out-of-range reads are modelled as `0`. -/
def mget (A : Mat) (i j : ℕ) : ℝ := (A.getD i []).getD j 0

/-- In-place write `A[i][j] = v` (a value-level model of the JS array store;
out-of-range writes, never performed by the source on its own states, are
modelled as no-ops). -/
def setEntry (A : Mat) (i j : ℕ) (v : ℝ) : Mat :=
  A.set i ((A.getD i []).set j v)

/-- `A.length`, the row count used by the source. -/
def rowsOf (A : Mat) : ℕ := A.length

/-- `A[0].length`, the column count used by the source. -/
def colsOf (A : Mat) : ℕ := (A.headD []).length

/-- A well-formed (rectangular, non-empty) matrix, the shape every source
call site maintains. -/
def MatWF (A : Mat) : Prop :=
  0 < A.length ∧ 0 < (A.headD []).length ∧ ∀ row ∈ A, row.length = (A.headD []).length

/-- The two exception kinds thrown by the matrix utilities. -/
inductive MatErr : Type
  | incompatibleDimensions
  | singularMatrix
deriving DecidableEq

/-- `acc += f k` for `k = 0, 1, ..., n-1`, in ascending order starting from
the initial accumulator `0`, exactly as the source's `for` loops accumulate. -/
def sumFold (n : ℕ) (f : ℕ → ℝ) : ℝ :=
  (List.range n).foldl (fun acc k => acc + f k) 0

/-- `mat_add`: `A.map((row, i) => row.map((val, j) => val + B[i][j]))`. -/
def mat_add (A B : Mat) : Mat :=
  (List.range A.length).map fun i =>
    (List.range (A.getD i []).length).map fun j => mget A i j + mget B i j

/-- `mat_sub`: `A.map((row, i) => row.map((val, j) => val - B[i][j]))`. -/
def mat_sub (A B : Mat) : Mat :=
  (List.range A.length).map fun i =>
    (List.range (A.getD i []).length).map fun j => mget A i j - mget B i j

/-- `mat_mul`: throws when `A[0].length !== B.length`, otherwise returns the
`A.length × B[0].length` product, each entry accumulated by
`C[i][j] += A[i][k] * B[k][j]` over ascending `k`. -/
def mat_mul (A B : Mat) : Except MatErr Mat :=
  if (A.headD []).length ≠ B.length then
    .error .incompatibleDimensions
  else
    .ok ((List.range A.length).map fun i =>
      (List.range (B.headD []).length).map fun j =>
        sumFold (A.headD []).length fun k => mget A i k * mget B k j)

/-- `mat_transpose`: `A[0].map((_, colIndex) => A.map(row => row[colIndex]))`. -/
def mat_transpose (A : Mat) : Mat :=
  (List.range (A.headD []).length).map fun colIndex =>
    A.map fun row => row.getD colIndex 0

/-- `mat_scalar_mul`: `A.map(row => row.map(val => val * s))`. -/
def mat_scalar_mul (A : Mat) (s : ℝ) : Mat :=
  A.map fun row => row.map fun val => val * s

/-- `mat_identity`: zeros with `1` written down the diagonal. -/
def mat_identity (size : ℕ) : Mat :=
  (List.range size).map fun i =>
    (List.range size).map fun j => if i = j then (1 : ℝ) else 0

/-- `mat_inv_2x2`: throws `SingularMatrix` when the determinant is exactly
`0`, otherwise the closed-form inverse with `invDet = 1 / det`. -/
def mat_inv_2x2 (A : Mat) : Except MatErr Mat :=
  let det := mget A 0 0 * mget A 1 1 - mget A 0 1 * mget A 1 0
  if det = 0 then
    .error .singularMatrix
  else
    let invDet := 1 / det
    .ok [[mget A 1 1 * invDet, -mget A 0 1 * invDet],
         [-mget A 1 0 * invDet, mget A 0 0 * invDet]]

/-- The accumulation pattern of the source's Cholesky loops: starting from an
empty array, append for each index `x < m` a new element computed from the
part already built. -/
def jsGrow {α : Type} (g : List α → ℕ → α) (m : ℕ) : List α :=
  (List.range m).foldl (fun acc x => acc ++ [g acc x]) []

/-- One entry of the Cholesky row being built: `r` is the part of row `i`
already computed (entries `0..j-1`), `Lacc` holds the finished rows `0..i-1`.
Mirrors the body of the source's inner `j` loop, including the zero clamp on
the diagonal and the skipped (left at `0`) entries below a zero pivot. -/
def cholRowEntry (A Lacc : Mat) (i j : ℕ) (r : List ℝ) : ℝ :=
  if i < j then 0
  else if i = j then
    let sum := sumFold j fun k => r.getD k 0 * r.getD k 0
    let val := mget A i i - sum
    if 0 < val then Real.sqrt val else 0
  else
    let sum := sumFold j fun k => r.getD k 0 * mget Lacc j k
    if mget Lacc j j = 0 then 0
    else 1 / mget Lacc j j * (mget A i j - sum)

/-- Row `i` of the Cholesky factor, built entry by entry from column `0`
(entries right of the diagonal stay `0`, as in the source's zero-filled `L`). -/
def cholRow (A Lacc : Mat) (i : ℕ) : List ℝ :=
  jsGrow (fun r j => cholRowEntry A Lacc i j r) A.length

/-- `mat_cholesky`: the source's row-by-row decomposition; total, never throws. -/
def mat_cholesky (A : Mat) : Mat :=
  jsGrow (fun Lacc i => cholRow A Lacc i) A.length

/-- The state of the source's outer Cholesky loop after `i` rows are built. -/
def cholPrefix (A : Mat) (i : ℕ) : Mat :=
  jsGrow (fun Lacc i' => cholRow A Lacc i') i

/-- A 2-D point, `{x: number, y: number}`. -/
structure Coordinates : Type where
  x : ℝ
  y : ℝ

/-- `LowPassFilterInstance`. -/
structure LowPassFilterInstance : Type where
  previousEstimate : Option Coordinates

/-- `KalmanFilterInstance`. -/
structure KalmanFilterInstance : Type where
  x : Mat
  P : Mat
  A : Mat
  H : Mat
  Q : Mat
  R : Mat
  firstRun : Bool
  lastTimestamp : Option ℝ

/-- `UKFInstance`. -/
structure UKFInstance : Type where
  x : Mat
  P : Mat
  Q : Mat
  R : Mat
  n : ℕ
  m : ℕ
  alpha : ℝ
  beta : ℝ
  kappa : ℝ
  lambda : ℝ
  weights_m : List ℝ
  weights_c : List ℝ
  lastTimestamp : Option ℝ
  lastMeasurement : Option Coordinates

/-- `const dt = lastTimestamp ? (currentTimestamp - lastTimestamp) / 15 : 1;`
A JS number is falsy when it is `0` (or `NaN`), so a stored timestamp of `0`
takes the `1` branch exactly like a missing one. -/
def jsDt (lastTimestamp : Option ℝ) (now : ℝ) : ℝ :=
  match lastTimestamp with
  | none => 1
  | some t => if t = 0 then 1 else (now - t) / 15

/-- JS truthiness of a stored numeric timestamp: present and nonzero. -/
def jsTruthy (t : Option ℝ) : Prop :=
  match t with
  | none => False
  | some v => v ≠ 0

/-- `Math.atan2(y, x)`: the angle of the point `(x, y)` in `(-pi, pi]`, with
`atan2 0 0 = 0`, i.e. the argument of the complex number `x + y*I`. -/
def atan2 (y x : ℝ) : ℝ := Complex.arg ⟨x, y⟩

/-- `initialLowPassFilter`. -/
def initialLowPassFilter : LowPassFilterInstance := ⟨none⟩

/-- `applyLowPassFilter`.  Returns the source's `[estimate, newState]` pair
together with the caller's state value after the call (this function performs
no writes, so that value is the input itself). -/
def applyLowPassFilter (filter : LowPassFilterInstance) (measurement : Coordinates)
    (alpha : ℝ) : (Coordinates × LowPassFilterInstance) × LowPassFilterInstance :=
  match filter.previousEstimate with
  | none => ((measurement, ⟨some measurement⟩), filter)
  | some prev =>
    let newEstimate : Coordinates :=
      ⟨alpha * measurement.x + (1 - alpha) * prev.x,
       alpha * measurement.y + (1 - alpha) * prev.y⟩
    ((newEstimate, ⟨some newEstimate⟩), filter)

/-- `initialKalmanFilter`. -/
def initialKalmanFilter (q r : ℝ) : KalmanFilterInstance where
  x := [[0], [0], [0], [0]]
  P := mat_identity 4
  A := [[1, 0, 1, 0], [0, 1, 0, 1], [0, 0, 1, 0], [0, 0, 0, 1]]
  H := [[1, 0, 0, 0], [0, 1, 0, 0]]
  Q := mat_scalar_mul (mat_identity 4) q
  R := mat_scalar_mul (mat_identity 2) r
  firstRun := true
  lastTimestamp := none

/-- `applyKalmanFilter`.  The first component is the source's return value
(or the thrown error); the second is the caller's state value after the call:
the source writes `A[0][2] = dt; A[1][3] = dt` through the destructured alias
of `filter.A` before any throw can happen, so the caller's `A` is updated in
place while every other field of the old state keeps its value.  The returned
new state spreads the old one, so it shares the updated `A` as well as
`H`, `Q`, `R`. -/
def applyKalmanFilter (filter : KalmanFilterInstance) (measurement : Coordinates)
    (now : ℝ) : Except MatErr (Coordinates × KalmanFilterInstance) × KalmanFilterInstance :=
  let dt := jsDt filter.lastTimestamp now
  let A := setEntry (setEntry filter.A 0 2 dt) 1 3 dt
  let x := if filter.firstRun then [[measurement.x], [measurement.y], [0], [0]] else filter.x
  let inputAfter := { filter with A := A }
  let result : Except MatErr (Coordinates × KalmanFilterInstance) := do
    let x_pred ← mat_mul A x
    let AP ← mat_mul A filter.P
    let APAt ← mat_mul AP (mat_transpose A)
    let P_pred := mat_add APAt filter.Q
    let z : Mat := [[measurement.x], [measurement.y]]
    let Hx ← mat_mul filter.H x_pred
    let y := mat_sub z Hx
    let HP ← mat_mul filter.H P_pred
    let HPHt ← mat_mul HP (mat_transpose filter.H)
    let S := mat_add HPHt filter.R
    let PHt ← mat_mul P_pred (mat_transpose filter.H)
    let Sinv ← mat_inv_2x2 S
    let K ← mat_mul PHt Sinv
    let Ky ← mat_mul K y
    let x_new := mat_add x_pred Ky
    let KH ← mat_mul K filter.H
    let P_new ← mat_mul (mat_sub (mat_identity 4) KH) P_pred
    pure (⟨mget x_new 0 0, mget x_new 1 0⟩,
      { filter with
        x := x_new, P := P_new, A := A, firstRun := false, lastTimestamp := some now })
  (result, inputAfter)

/-- `initialUKF`. -/
def initialUKF (q_val r_val : ℝ) : UKFInstance :=
  let n : ℕ := 5
  let m : ℕ := 2
  let alpha : ℝ := 0.01
  let kappa : ℝ := 0
  let beta : ℝ := 2
  let lambda : ℝ := alpha * alpha * ((n : ℝ) + kappa) - (n : ℝ)
  let weights_m : List ℝ := (List.range (2 * n + 1)).map fun i =>
    if i = 0 then lambda / ((n : ℝ) + lambda) else 1 / (2 * ((n : ℝ) + lambda))
  let weights_c : List ℝ := (List.range (2 * n + 1)).map fun i =>
    if i = 0 then lambda / ((n : ℝ) + lambda) + (1 - alpha * alpha + beta)
    else 1 / (2 * ((n : ℝ) + lambda))
  let Q := setEntry (setEntry (setEntry (setEntry (setEntry (mat_identity n)
    0 0 0.1) 1 1 0.1) 2 2 q_val) 3 3 0.1) 4 4 q_val
  { x := [[0], [0], [0], [0], [0]]
    P := mat_identity n
    Q := Q
    R := mat_scalar_mul (mat_identity m) r_val
    n := n, m := m, alpha := alpha, beta := beta, kappa := kappa, lambda := lambda
    weights_m := weights_m, weights_c := weights_c
    lastTimestamp := none, lastMeasurement := none }

/-- The coordinated-turn propagation of one sigma point (step 2 of `applyUKF`). -/
def ukfMotion (sp : Mat) (dt : ℝ) : Mat :=
  let px := mget sp 0 0
  let py := mget sp 1 0
  let v := mget sp 2 0
  let theta := mget sp 3 0
  let omega := mget sp 4 0
  let pxy : ℝ × ℝ :=
    if 0.0001 < |omega| then
      (px + v / omega * (Real.sin (theta + omega * dt) - Real.sin theta),
       py + v / omega * (-Real.cos (theta + omega * dt) + Real.cos theta))
    else
      (px + v * Real.cos theta * dt, py + v * Real.sin theta * dt)
  [[pxy.1], [pxy.2], [v], [theta + omega * dt], [omega]]

/-- Steps 1-3 (sigma points, nonlinear predict, update) of `applyUKF`, run on
the state as it stands after the velocity/heading bootstrap.  `measurement`,
`dt` and `now` are the values the surrounding call computed. -/
def ukfCycle (filter : UKFInstance) (measurement : Coordinates) (dt now : ℝ) :
    Except MatErr (Coordinates × UKFInstance) := do
  let n := filter.n
  let m := filter.m
  let P_sqrt := mat_cholesky (mat_scalar_mul filter.P ((n : ℝ) + filter.lambda))
  let col := fun i => P_sqrt.map fun row => [row.getD i 0]
  let sigma_points := (List.range (2 * n + 1)).map fun idx =>
    if idx = 0 then filter.x
    else if idx ≤ n then mat_add filter.x (col (idx - 1))
    else mat_sub filter.x (col (idx - 1 - n))
  let sigma_points_pred := sigma_points.map fun sp => ukfMotion sp dt
  let x_pred : Mat := (List.range n).map fun j =>
    [sumFold (2 * n + 1) fun i =>
      filter.weights_m.getD i 0 * mget (sigma_points_pred.getD i []) j 0]
  let P_pred0 ← (List.range (2 * n + 1)).foldlM (fun Pa i => do
    let diff := mat_sub (sigma_points_pred.getD i []) x_pred
    let ddt ← mat_mul diff (mat_transpose diff)
    pure (mat_add Pa (mat_scalar_mul ddt (filter.weights_c.getD i 0))))
    (List.replicate n (List.replicate n (0 : ℝ)))
  let P_pred := mat_add P_pred0 filter.Q
  let z_sigma_points := sigma_points_pred.map fun sp => [[mget sp 0 0], [mget sp 1 0]]
  let z_pred : Mat := (List.range m).map fun j =>
    [sumFold (2 * n + 1) fun i =>
      filter.weights_m.getD i 0 * mget (z_sigma_points.getD i []) j 0]
  let S0 ← (List.range (2 * n + 1)).foldlM (fun Sa i => do
    let z_diff := mat_sub (z_sigma_points.getD i []) z_pred
    let zzt ← mat_mul z_diff (mat_transpose z_diff)
    pure (mat_add Sa (mat_scalar_mul zzt (filter.weights_c.getD i 0))))
    (List.replicate m (List.replicate m (0 : ℝ)))
  let S := mat_add S0 filter.R
  let T ← (List.range (2 * n + 1)).foldlM (fun Ta i => do
    let x_diff := mat_sub (sigma_points_pred.getD i []) x_pred
    let z_diff := mat_sub (z_sigma_points.getD i []) z_pred
    let xzt ← mat_mul x_diff (mat_transpose z_diff)
    pure (mat_add Ta (mat_scalar_mul xzt (filter.weights_c.getD i 0))))
    (List.replicate n (List.replicate m (0 : ℝ)))
  let Sinv ← mat_inv_2x2 S
  let K ← mat_mul T Sinv
  let z_actual : Mat := [[measurement.x], [measurement.y]]
  let z_residual := mat_sub z_actual z_pred
  let Kz ← mat_mul K z_residual
  let x_new := mat_add x_pred Kz
  let KS ← mat_mul K S
  let KSKt ← mat_mul KS (mat_transpose K)
  let P_new := mat_sub P_pred KSKt
  pure (⟨mget x_new 0 0, mget x_new 1 0⟩,
    { filter with
      x := x_new, P := P_new, lastTimestamp := some now,
      lastMeasurement := some measurement })

/-- `applyUKF`.  The first component is the source's return value (or the
thrown error); the second is the caller's state value after the call: the
first-call branch writes the measurement into rows 0 and 1 of the caller's
`x`, the bootstrap branch writes speed and heading into rows 2 and 3, both
through the destructured alias of `filter.x`, before the filter cycle (and any
possible throw) runs. -/
def applyUKF (filter : UKFInstance) (measurement : Coordinates) (now : ℝ) :
    Except MatErr (Coordinates × UKFInstance) × UKFInstance :=
  let dt := jsDt filter.lastTimestamp now
  match filter.lastMeasurement with
  | none =>
    let x1 := setEntry (setEntry filter.x 0 0 measurement.x) 1 0 measurement.y
    (.ok (⟨mget x1 0 0, mget x1 1 0⟩,
      { filter with x := x1, lastTimestamp := some now, lastMeasurement := some measurement }),
     { filter with x := x1 })
  | some lastMeasurement =>
    let x1 :=
      if jsTruthy filter.lastTimestamp ∧ mget filter.x 2 0 = 0 then
        let dx := measurement.x - lastMeasurement.x
        let dy := measurement.y - lastMeasurement.y
        let speed := Real.sqrt (dx * dx + dy * dy) / dt
        let heading := atan2 dy dx
        setEntry (setEntry filter.x 2 0 speed) 3 0 heading
      else filter.x
    (ukfCycle { filter with x := x1 } measurement dt now, { filter with x := x1 })

/-! ### Helper lemmas about lists and the fold-style sums -/

lemma range_two : List.range 2 = [0, 1] := rfl

lemma range_four : List.range 4 = [0, 1, 2, 3] := rfl

lemma range_five : List.range 5 = [0, 1, 2, 3, 4] := rfl

lemma range_eleven : List.range 11 = [0, 1, 2, 3, 4, 5, 6, 7, 8, 9, 10] := rfl

lemma sumFold_zero (f : ℕ → ℝ) : sumFold 0 f = 0 := rfl

lemma sumFold_succ (n : ℕ) (f : ℕ → ℝ) : sumFold (n + 1) f = sumFold n f + f n := by
  simp [sumFold, List.range_succ]

/-- The source's ascending in-place accumulation is the finite sum. -/
lemma sumFold_eq_sum (n : ℕ) (f : ℕ → ℝ) : sumFold n f = ∑ k in Finset.range n, f k := by
  induction n with
  | zero => simp [sumFold_zero]
  | succ k ih => rw [sumFold_succ, ih, Finset.sum_range_succ]

lemma getD_map_range {α : Type} (n i : ℕ) (f : ℕ → α) (d : α) (h : i < n) :
    ((List.range n).map f).getD i d = f i := by
  rw [List.getD_eq_getElem _ _ (by simpa using h)]
  simp

lemma getD_set_ne {α : Type} (l : List α) (i j : ℕ) (v : α) (d : α) (h : i ≠ j) :
    (l.set j v).getD i d = l.getD i d := by
  induction l generalizing i j with
  | nil => simp
  | cons a t ih =>
    cases j with
    | zero =>
      cases i with
      | zero => exact absurd rfl h
      | succ i => simp [List.set]
    | succ j =>
      cases i with
      | zero => simp [List.set]
      | succ i => simpa [List.set] using ih i j (fun hc => h (by simp [hc]))

lemma getD_set_self {α : Type} (l : List α) (j : ℕ) (v : α) (d : α) (h : j < l.length) :
    (l.set j v).getD j d = v := by
  induction l generalizing j with
  | nil => simp at h
  | cons a t ih =>
    cases j with
    | zero => simp [List.set]
    | succ j => simpa [List.set] using ih j (by simpa using h)

lemma mget_setEntry_ne (A : Mat) (a b i j : ℕ) (v : ℝ) (h : ¬(i = a ∧ j = b)) :
    mget (setEntry A a b v) i j = mget A i j := by
  unfold mget setEntry
  rcases eq_or_ne i a with rfl | hia
  · have hjb : j ≠ b := fun hc => h ⟨rfl, hc⟩
    rcases Nat.lt_or_ge i A.length with hlen | hlen
    · rw [getD_set_self _ _ _ _ hlen, getD_set_ne _ _ _ _ _ hjb]
    · rw [List.getD_eq_default (A.set i ((A.getD i []).set b v)) [] (by simpa using hlen),
          List.getD_eq_default A [] hlen]
  · rw [getD_set_ne _ _ _ _ _ hia]

lemma mget_setEntry_self (A : Mat) (a b : ℕ) (v : ℝ)
    (ha : a < A.length) (hb : b < (A.getD a []).length) :
    mget (setEntry A a b v) a b = v := by
  unfold mget setEntry
  rw [getD_set_self _ _ _ _ ha, getD_set_self _ _ _ _ hb]

lemma setEntry_length (A : Mat) (a b : ℕ) (v : ℝ) :
    (setEntry A a b v).length = A.length := by
  simp [setEntry]

lemma rowAt_setEntry_ne (A : Mat) (a b i : ℕ) (v : ℝ) (h : i ≠ a) :
    (setEntry A a b v).getD i [] = A.getD i [] := by
  unfold setEntry
  exact getD_set_ne _ _ _ _ _ h

/-! ### C6 and C9: the low-pass filter -/

/-- C6: with no previous estimate, `applyLowPassFilter` returns the
measurement and a state holding it; otherwise it returns the componentwise
blend `alpha * measurement + (1 - alpha) * previous` and a state carrying that
blend; feeding (100,100) then (200,200) with alpha = 0.5 yields (150,150),
and with alpha = 1 the estimate is the latest measurement exactly. -/
theorem C6_lowpass_blend :
    (∀ (f : LowPassFilterInstance) (mv : Coordinates) (a : ℝ),
      f.previousEstimate = none →
      (applyLowPassFilter f mv a).1 = (mv, ⟨some mv⟩)) ∧
    (∀ (f : LowPassFilterInstance) (mv : Coordinates) (a : ℝ) (p : Coordinates),
      f.previousEstimate = some p →
      (applyLowPassFilter f mv a).1 =
        (⟨a * mv.x + (1 - a) * p.x, a * mv.y + (1 - a) * p.y⟩,
         ⟨some ⟨a * mv.x + (1 - a) * p.x, a * mv.y + (1 - a) * p.y⟩⟩)) ∧
    ((applyLowPassFilter
        ((applyLowPassFilter initialLowPassFilter ⟨100, 100⟩ 0.5).1.2)
        ⟨200, 200⟩ 0.5).1.1 = ⟨150, 150⟩) ∧
    (∀ (f : LowPassFilterInstance) (mv : Coordinates) (p : Coordinates),
      f.previousEstimate = some p →
      (applyLowPassFilter f mv 1).1.1 = mv) := by
  refine ⟨?_, ?_, ?_, ?_⟩
  · intro f mv a h
    simp [applyLowPassFilter, h]
  · intro f mv a p h
    simp [applyLowPassFilter, h]
  · simp [applyLowPassFilter, initialLowPassFilter]
    norm_num
  · intro f mv p h
    simp [applyLowPassFilter, h]

/-- Witness for C6 at a concrete non-first call. -/
theorem C6_lowpass_blend_witness :
    (applyLowPassFilter ⟨some ⟨100, 100⟩⟩ ⟨200, 200⟩ 0.5).1 =
      (⟨0.5 * 200 + (1 - 0.5) * 100, 0.5 * 200 + (1 - 0.5) * 100⟩,
       ⟨some ⟨0.5 * 200 + (1 - 0.5) * 100, 0.5 * 200 + (1 - 0.5) * 100⟩⟩) :=
  C6_lowpass_blend.2.1 ⟨some ⟨100, 100⟩⟩ ⟨200, 200⟩ 0.5 ⟨100, 100⟩ rfl

/-- C9: `applyLowPassFilter` validates nothing about `alpha`; for every real
`alpha` a non-first call returns exactly the blend, `alpha = 0` leaves the
estimate frozen at the previous value under any further stream of
measurements, and a first call gives the same answer for every `alpha`. -/
theorem C9_lowpass_total_in_alpha :
    (∀ (f : LowPassFilterInstance) (mv : Coordinates) (a : ℝ) (p : Coordinates),
      f.previousEstimate = some p →
      (applyLowPassFilter f mv a).1.1 =
        ⟨a * mv.x + (1 - a) * p.x, a * mv.y + (1 - a) * p.y⟩) ∧
    (∀ (p : Coordinates) (ms : List Coordinates),
      (ms.foldl (fun st mv => (applyLowPassFilter st mv 0).1.2)
        ⟨some p⟩).previousEstimate = some p) ∧
    (∀ (p mv : Coordinates), (applyLowPassFilter ⟨some p⟩ mv 0).1.1 = p) ∧
    (∀ (f : LowPassFilterInstance) (mv : Coordinates) (a a' : ℝ),
      f.previousEstimate = none →
      applyLowPassFilter f mv a = applyLowPassFilter f mv a') := by
  have step : ∀ (p mv : Coordinates),
      (applyLowPassFilter ⟨some p⟩ mv 0).1 = (p, ⟨some p⟩) := by
    intro p mv
    simp [applyLowPassFilter]
  refine ⟨?_, ?_, ?_, ?_⟩
  · intro f mv a p h
    simp [applyLowPassFilter, h]
  · intro p ms
    induction ms generalizing p with
    | nil => rfl
    | cons mv t ih =>
      have h1 : (applyLowPassFilter ⟨some p⟩ mv 0).1.2 = ⟨some p⟩ := by
        rw [step]
      simpa [h1] using ih p
  · intro p mv
    rw [step]
  · intro f mv a a' h
    simp [applyLowPassFilter, h]

/-- Witness for C9 at a concrete out-of-convention `alpha = -1`. -/
theorem C9_lowpass_total_in_alpha_witness :
    (applyLowPassFilter ⟨some ⟨1, 2⟩⟩ ⟨5, 6⟩ (-1)).1.1 =
      ⟨(-1) * 5 + (1 - (-1)) * 1, (-1) * 6 + (1 - (-1)) * 2⟩ :=
  C9_lowpass_total_in_alpha.1 ⟨some ⟨1, 2⟩⟩ ⟨5, 6⟩ (-1) ⟨1, 2⟩ rfl

/-! ### C4: the closed-form 2x2 inverse -/

/-- C4: `mat_inv_2x2` fails with `SingularMatrix` exactly when the
determinant `A[0][0]*A[1][1] - A[0][1]*A[1][0]` is `0` (no epsilon), and
otherwise returns `(1/det)` times the adjugate `[[A11,-A01],[-A10,A00]]`;
in particular `[[1,2],[2,4]]` fails. -/
theorem C4_inv2x2_spec :
    (∀ A : Mat,
      (mat_inv_2x2 A = .error .singularMatrix ↔
        mget A 0 0 * mget A 1 1 - mget A 0 1 * mget A 1 0 = 0) ∧
      (mget A 0 0 * mget A 1 1 - mget A 0 1 * mget A 1 0 ≠ 0 →
        mat_inv_2x2 A = .ok (mat_scalar_mul
          [[mget A 1 1, -mget A 0 1], [-mget A 1 0, mget A 0 0]]
          (1 / (mget A 0 0 * mget A 1 1 - mget A 0 1 * mget A 1 0))))) ∧
    mat_inv_2x2 [[1, 2], [2, 4]] = .error .singularMatrix := by
  constructor
  · intro A
    by_cases hdet : mget A 0 0 * mget A 1 1 - mget A 0 1 * mget A 1 0 = 0
    · constructor
      · simp [mat_inv_2x2, hdet]
      · intro hne
        exact absurd hdet hne
    · constructor
      · simp [mat_inv_2x2, hdet]
      · intro _
        simp only [mat_inv_2x2, hdet, if_false, mat_scalar_mul, List.map_cons,
          List.map_nil]
  · have : mget [[(1 : ℝ), 2], [2, 4]] 0 0 * mget [[(1 : ℝ), 2], [2, 4]] 1 1 -
        mget [[(1 : ℝ), 2], [2, 4]] 0 1 * mget [[(1 : ℝ), 2], [2, 4]] 1 0 = 0 := by
      norm_num [mget]
    simp [mat_inv_2x2, this]

/-- Witness for C4 at the nonsingular matrix `[[1,2],[3,4]]`. -/
theorem C4_inv2x2_spec_witness :
    mat_inv_2x2 [[1, 2], [3, 4]] =
      .ok (mat_scalar_mul [[(4 : ℝ), -2], [-3, 1]] (-(1 / 2))) := by
  have h := (C4_inv2x2_spec.1 [[1, 2], [3, 4]]).2 (by norm_num [mget])
  norm_num [mget] at h
  exact h

/-! ### C8: the UKF sigma-point weights -/

/-- C8: for the state built by `initialUKF`, `lambda = alpha^2*(n+kappa)-n`
with `n = 5`, `alpha = 0.01`, `kappa = 0`; `weights_m` has the 11 entries
`lambda/(n+lambda)` at index 0 and `1/(2(n+lambda))` at indices 1..10, and
they sum to 1 (exactly, in the real model). -/
theorem C8_ukf_weights (q r : ℝ) :
    (initialUKF q r).lambda = 0.01 ^ 2 * (5 + 0) - 5 ∧
    (initialUKF q r).weights_m.length = 11 ∧
    (initialUKF q r).weights_m.getD 0 0 =
      (initialUKF q r).lambda / (5 + (initialUKF q r).lambda) ∧
    (∀ i : ℕ, 1 ≤ i → i ≤ 10 →
      (initialUKF q r).weights_m.getD i 0 =
        1 / (2 * (5 + (initialUKF q r).lambda))) ∧
    (initialUKF q r).weights_m.sum = 1 := by
  have hw : (initialUKF q r).weights_m = (List.range 11).map (fun i =>
      if i = 0 then (initialUKF q r).lambda / (5 + (initialUKF q r).lambda)
      else 1 / (2 * (5 + (initialUKF q r).lambda))) := by
    simp [initialUKF]
  have hl : (initialUKF q r).lambda = 0.01 * 0.01 * (5 + 0) - 5 := by
    simp [initialUKF]
  refine ⟨?_, ?_, ?_, ?_, ?_⟩
  · rw [hl]
    norm_num
  · rw [hw]
    simp
  · rw [hw, getD_map_range _ _ _ _ (by norm_num)]
    simp
  · intro i h1 h10
    rw [hw, getD_map_range _ _ _ _ (by omega)]
    simp [show i ≠ 0 by omega]
  · rw [hw, range_eleven]
    simp only [List.map_cons, List.map_nil, List.sum_cons, List.sum_nil, hl]
    norm_num

/-- Witness for C8 at a concrete interior index. -/
theorem C8_ukf_weights_witness :
    (initialUKF 1 2).weights_m.getD 7 0 =
      1 / (2 * (5 + (initialUKF 1 2).lambda)) :=
  (C8_ukf_weights 1 2).2.2.2.1 7 (by norm_num) (by norm_num)

/-! ### C3: matrix multiplication -/

/-- C3: `mat_mul A B` fails with `IncompatibleDimensions` exactly when
`cols(A) != rows(B)`; otherwise it returns a `rows(A) x cols(B)` matrix whose
`(i, j)` entry is the ascending-order accumulated sum of
`A[i][k]*B[k][j]` over `k`, i.e. the finite sum over `k < cols(A)`. -/
theorem C3_mat_mul_spec (A B : Mat) (hA : MatWF A) (hB : MatWF B) :
    (mat_mul A B = .error .incompatibleDimensions ↔ colsOf A ≠ rowsOf B) ∧
    (colsOf A = rowsOf B → ∃ C, mat_mul A B = .ok C ∧
      C.length = rowsOf A ∧ (∀ row ∈ C, row.length = colsOf B) ∧
      ∀ i j, i < rowsOf A → j < colsOf B →
        mget C i j = ∑ k in Finset.range (colsOf A), mget A i k * mget B k j) := by
  constructor
  · unfold mat_mul colsOf rowsOf
    split_ifs with h
    · simpa using h
    · simpa using h
  · intro hdim
    refine ⟨(List.range A.length).map fun i =>
      (List.range (B.headD []).length).map fun j =>
        sumFold (A.headD []).length fun k => mget A i k * mget B k j, ?_, ?_, ?_, ?_⟩
    · unfold mat_mul
      rw [if_neg (by simpa [colsOf, rowsOf] using hdim)]
    · simp [rowsOf]
    · intro row hrow
      obtain ⟨i, _, rfl⟩ := List.mem_map.mp hrow
      simp [colsOf]
    · intro i j hi hj
      unfold mget
      rw [getD_map_range _ _ _ _ (by simpa [rowsOf] using hi),
        getD_map_range _ _ _ _ (by simpa [colsOf] using hj)]
      rw [sumFold_eq_sum]
      rfl

/-- Witness for C3 on the spec's worked example dimensions. -/
theorem C3_mat_mul_spec_witness :
    ∃ C, mat_mul [[(1 : ℝ), 2], [3, 4]] [[(5 : ℝ), 6], [7, 8]] = Except.ok C := by
  obtain ⟨C, hC, -, -, -⟩ :=
    (C3_mat_mul_spec [[(1 : ℝ), 2], [3, 4]] [[(5 : ℝ), 6], [7, 8]]
      (by simp [MatWF]) (by simp [MatWF])).2 rfl
  exact ⟨C, hC⟩

/-! ### C7: the UKF first call -/

/-- C7: on the very first `applyUKF` call from `initialUKF` (no stored
measurement), the call seeds rows 0 and 1 of `x` from the measurement, leaves
velocity and heading at 0, returns the measurement itself as the estimate,
and returns immediately: the returned state keeps `P`, `Q`, `R`, the weight
vectors and every scaling constant of the input state, changing only `x`,
`lastTimestamp` and `lastMeasurement`. -/
theorem C7_ukf_first_call (q r : ℝ) (mv : Coordinates) (now : ℝ) :
    applyUKF (initialUKF q r) mv now =
      (.ok (mv, { initialUKF q r with
          x := [[mv.x], [mv.y], [0], [0], [0]],
          lastTimestamp := some now,
          lastMeasurement := some mv }),
       { initialUKF q r with x := [[mv.x], [mv.y], [0], [0], [0]] }) := by
  have hx : setEntry (setEntry (initialUKF q r).x 0 0 mv.x) 1 0 mv.y =
      [[mv.x], [mv.y], [0], [0], [0]] := by
    simp [initialUKF, setEntry]
  have hm : mget [[mv.x], [mv.y], [0], [0], [0]] 0 0 = mv.x ∧
      mget [[mv.x], [mv.y], [0], [0], [0]] 1 0 = mv.y := by
    constructor <;> simp [mget]
  simp only [applyUKF]
  rw [show (initialUKF q r).lastMeasurement = none from rfl]
  simp only [hx, hm.1, hm.2]

/-! ### C1: what apply does and does not mutate -/

/-- C1 counterexample: the very first `applyUKF` call writes the measurement
into the caller's old state: after `applyUKF (initialUKF 1 1) (3,4) 5`, the
caller's `x` matrix reads `[[3],[4],[0],[0],[0]]`, no longer its original
`[[0],[0],[0],[0],[0]]`, so the old state is not unchanged. -/
theorem C1_counterexample :
    (applyUKF (initialUKF 1 1) ⟨3, 4⟩ 5).2.x ≠ (initialUKF 1 1).x ∧
    (applyUKF (initialUKF 1 1) ⟨3, 4⟩ 5).2.x = [[3], [4], [0], [0], [0]] ∧
    (initialUKF 1 1).x = [[0], [0], [0], [0], [0]] := by
  have h2 : (applyUKF (initialUKF 1 1) ⟨3, 4⟩ 5).2.x = [[3], [4], [0], [0], [0]] := by
    simp only [applyUKF]
    rw [show (initialUKF 1 1).lastMeasurement = none from rfl]
    simp [initialUKF, setEntry]
  refine ⟨?_, h2, rfl⟩
  rw [h2]
  simp [initialUKF]

/-- C1 (amended): each `apply` returns a fresh state, and the low-pass filter
leaves the caller's old state unchanged; but the Kalman filter writes `dt`
into entries (0,2) and (1,3) of the old state's `A` (all other fields and all
other `A` entries unchanged), and the UKF writes into column 0, rows 0-3 of
the old state's `x` (rows 0,1 on the first call, rows 2,3 when
bootstrapping; all other fields and all other `x` entries unchanged). -/
theorem C1_apply_mutation :
    (∀ (f : LowPassFilterInstance) (mv : Coordinates) (a : ℝ),
      (applyLowPassFilter f mv a).2 = f) ∧
    (∀ (f : KalmanFilterInstance) (mv : Coordinates) (now : ℝ),
      (applyKalmanFilter f mv now).2.x = f.x ∧
      (applyKalmanFilter f mv now).2.P = f.P ∧
      (applyKalmanFilter f mv now).2.H = f.H ∧
      (applyKalmanFilter f mv now).2.Q = f.Q ∧
      (applyKalmanFilter f mv now).2.R = f.R ∧
      (applyKalmanFilter f mv now).2.firstRun = f.firstRun ∧
      (applyKalmanFilter f mv now).2.lastTimestamp = f.lastTimestamp ∧
      (∀ i j, ¬(i = 0 ∧ j = 2) → ¬(i = 1 ∧ j = 3) →
        mget (applyKalmanFilter f mv now).2.A i j = mget f.A i j) ∧
      (0 < f.A.length → 2 < (f.A.getD 0 []).length →
        mget (applyKalmanFilter f mv now).2.A 0 2 = jsDt f.lastTimestamp now) ∧
      (1 < f.A.length → 3 < (f.A.getD 1 []).length →
        mget (applyKalmanFilter f mv now).2.A 1 3 = jsDt f.lastTimestamp now)) ∧
    (∀ (f : UKFInstance) (mv : Coordinates) (now : ℝ),
      (applyUKF f mv now).2.P = f.P ∧
      (applyUKF f mv now).2.Q = f.Q ∧
      (applyUKF f mv now).2.R = f.R ∧
      (applyUKF f mv now).2.n = f.n ∧
      (applyUKF f mv now).2.m = f.m ∧
      (applyUKF f mv now).2.alpha = f.alpha ∧
      (applyUKF f mv now).2.beta = f.beta ∧
      (applyUKF f mv now).2.kappa = f.kappa ∧
      (applyUKF f mv now).2.lambda = f.lambda ∧
      (applyUKF f mv now).2.weights_m = f.weights_m ∧
      (applyUKF f mv now).2.weights_c = f.weights_c ∧
      (applyUKF f mv now).2.lastTimestamp = f.lastTimestamp ∧
      (applyUKF f mv now).2.lastMeasurement = f.lastMeasurement ∧
      (∀ i j, ¬(j = 0 ∧ i ≤ 3) →
        mget (applyUKF f mv now).2.x i j = mget f.x i j)) := by
  refine ⟨?_, ?_, ?_⟩
  · intro f mv a
    cases h : f.previousEstimate <;> simp [applyLowPassFilter, h]
  · intro f mv now
    have h2 : (applyKalmanFilter f mv now).2 =
        { f with A := (setEntry (setEntry f.A 0 2 (jsDt f.lastTimestamp now)) 1 3
            (jsDt f.lastTimestamp now)) } := rfl
    rw [h2]
    refine ⟨rfl, rfl, rfl, rfl, rfl, rfl, rfl, ?_, ?_, ?_⟩
    · intro i j h02 h13
      rw [mget_setEntry_ne _ _ _ _ _ _ h13, mget_setEntry_ne _ _ _ _ _ _ h02]
    · intro hl0 hl2
      rw [mget_setEntry_ne _ _ _ _ _ _ (by omega),
        mget_setEntry_self _ _ _ _ hl0 hl2]
    · intro hl1 hl3
      rw [mget_setEntry_self _ _ _ _ (by rw [setEntry_length]; exact hl1)
        (by rw [rowAt_setEntry_ne _ _ _ _ _ (by omega)]; exact hl3)]
  · intro f mv now
    cases hlm : f.lastMeasurement with
    | none =>
      have h2 : (applyUKF f mv now).2 =
          { f with x := setEntry (setEntry f.x 0 0 mv.x) 1 0 mv.y } := by
        simp only [applyUKF, hlm]
      rw [h2]
      refine ⟨rfl, rfl, rfl, rfl, rfl, rfl, rfl, rfl, rfl, rfl, rfl, rfl, hlm, ?_⟩
      intro i j hij
      rw [mget_setEntry_ne _ _ _ _ _ _ (by rintro ⟨rfl, rfl⟩; exact hij ⟨rfl, by omega⟩),
        mget_setEntry_ne _ _ _ _ _ _ (by rintro ⟨rfl, rfl⟩; exact hij ⟨rfl, by omega⟩)]
    | some lm =>
      by_cases hc : jsTruthy f.lastTimestamp ∧ mget f.x 2 0 = 0
      · have h2 : (applyUKF f mv now).2 =
            { f with x := setEntry (setEntry f.x 2 0
                (Real.sqrt ((mv.x - lm.x) * (mv.x - lm.x) + (mv.y - lm.y) * (mv.y - lm.y)) /
                  jsDt f.lastTimestamp now)) 3 0 (atan2 (mv.y - lm.y) (mv.x - lm.x)) } := by
          simp only [applyUKF, hlm]
          rw [if_pos hc]
        rw [h2]
        refine ⟨rfl, rfl, rfl, rfl, rfl, rfl, rfl, rfl, rfl, rfl, rfl, rfl, hlm, ?_⟩
        intro i j hij
        rw [mget_setEntry_ne _ _ _ _ _ _ (by rintro ⟨rfl, rfl⟩; exact hij ⟨rfl, by omega⟩),
          mget_setEntry_ne _ _ _ _ _ _ (by rintro ⟨rfl, rfl⟩; exact hij ⟨rfl, by omega⟩)]
      · have h2 : (applyUKF f mv now).2 = { f with x := f.x } := by
          simp only [applyUKF, hlm]
          rw [if_neg hc]
        rw [h2]
        exact ⟨rfl, rfl, rfl, rfl, rfl, rfl, rfl, rfl, rfl, rfl, rfl, rfl, hlm,
          fun i j _ => rfl⟩

/-- Witness for C1 (amended): the Kalman filter really does write `dt` into
the old state's `A[0][2]` on a concrete call. -/
theorem C1_apply_mutation_witness :
    mget (applyKalmanFilter (initialKalmanFilter 1 1) ⟨0, 0⟩ 5).2.A 0 2 =
      jsDt (initialKalmanFilter 1 1).lastTimestamp 5 :=
  ((C1_apply_mutation.2.1 (initialKalmanFilter 1 1) ⟨0, 0⟩
      5).2.2.2.2.2.2.2.2.1)
    (by simp [initialKalmanFilter]) (by simp [initialKalmanFilter])

/-! ### C2: the Kalman filter's very first estimate -/

lemma range_one : List.range 1 = [0] := rfl

lemma ebind_ok {a b : Type} (v : a) (f : a → Except MatErr b) :
    (Except.ok v >>= f) = f v := rfl

lemma epure_eq {a : Type} (v : a) : (pure v : Except MatErr a) = Except.ok v := rfl

lemma emap_ok {a b : Type} (g : a → b) (v : a) :
    Except.map g (Except.ok v : Except MatErr a) = Except.ok (g v) := rfl

lemma mat_mul_ok (A B : Mat) (h : (A.headD []).length = B.length) :
    mat_mul A B = .ok ((List.range A.length).map fun i =>
      (List.range (B.headD []).length).map fun j =>
        sumFold (A.headD []).length fun k => mget A i k * mget B k j) := by
  unfold mat_mul
  rw [if_neg (not_not_intro h)]

/-- C2: for the state built by `initialKalmanFilter q r` with `q >= 0` and
`r >= 0`, the position estimate returned by the very first `apply` call
(`firstRun` true, no prior timestamp, `dt = 1`) equals the first measurement
exactly, component for component. -/
theorem C2_kalman_first_estimate (q r mx my now : ℝ) (hq : 0 ≤ q) (hr : 0 ≤ r) :
    (applyKalmanFilter (initialKalmanFilter q r) ⟨mx, my⟩ now).1.map Prod.fst =
      Except.ok (⟨mx, my⟩ : Coordinates) := by
  have hsne : (2 + q + r) ≠ 0 := by nlinarith
  have hI4 : mat_identity 4 = [[(1:ℝ),0,0,0],[0,1,0,0],[0,0,1,0],[0,0,0,1]] := by
    norm_num [mat_identity, range_four]
  have hI2 : mat_identity 2 = [[(1:ℝ),0],[0,1]] := by
    norm_num [mat_identity, range_two]
  have h_init : initialKalmanFilter q r =
      ⟨[[0],[0],[0],[0]], [[(1:ℝ),0,0,0],[0,1,0,0],[0,0,1,0],[0,0,0,1]],
       [[1,0,1,0],[0,1,0,1],[0,0,1,0],[0,0,0,1]], [[1,0,0,0],[0,1,0,0]],
       [[q,0,0,0],[0,q,0,0],[0,0,q,0],[0,0,0,q]], [[r,0],[0,r]], true, none⟩ := by
    simp [initialKalmanFilter, hI4, hI2, mat_scalar_mul]
  have hset : setEntry (setEntry [[(1:ℝ),0,1,0],[0,1,0,1],[0,0,1,0],[0,0,0,1]] 0 2 1) 1 3 1 =
      [[(1:ℝ),0,1,0],[0,1,0,1],[0,0,1,0],[0,0,0,1]] := by
    norm_num [setEntry]
  have hx_pred : mat_mul [[(1:ℝ),0,1,0],[0,1,0,1],[0,0,1,0],[0,0,0,1]] [[mx],[my],[0],[0]] =
      .ok [[mx],[my],[0],[0]] := by
    norm_num [mat_mul, mget, sumFold, range_one, range_four]
  have hAP : mat_mul [[(1:ℝ),0,1,0],[0,1,0,1],[0,0,1,0],[0,0,0,1]]
      [[(1:ℝ),0,0,0],[0,1,0,0],[0,0,1,0],[0,0,0,1]] =
      .ok [[(1:ℝ),0,1,0],[0,1,0,1],[0,0,1,0],[0,0,0,1]] := by
    norm_num [mat_mul, mget, sumFold, range_four]
  have hAt : mat_transpose [[(1:ℝ),0,1,0],[0,1,0,1],[0,0,1,0],[0,0,0,1]] =
      [[(1:ℝ),0,0,0],[0,1,0,0],[1,0,1,0],[0,1,0,1]] := by
    norm_num [mat_transpose, range_four]
  have hAPAt : mat_mul [[(1:ℝ),0,1,0],[0,1,0,1],[0,0,1,0],[0,0,0,1]]
      [[(1:ℝ),0,0,0],[0,1,0,0],[1,0,1,0],[0,1,0,1]] =
      .ok [[(2:ℝ),0,1,0],[0,2,0,1],[1,0,1,0],[0,1,0,1]] := by
    norm_num [mat_mul, mget, sumFold, range_four]
  have hP_pred : mat_add [[(2:ℝ),0,1,0],[0,2,0,1],[1,0,1,0],[0,1,0,1]]
      [[q,0,0,0],[0,q,0,0],[0,0,q,0],[0,0,0,q]] =
      [[2+q,0,1,0],[0,2+q,0,1],[1,0,1+q,0],[0,1,0,1+q]] := by
    norm_num [mat_add, mget, range_four]
  have hHx : mat_mul [[(1:ℝ),0,0,0],[0,1,0,0]] [[mx],[my],[0],[0]] = .ok [[mx],[my]] := by
    norm_num [mat_mul, mget, sumFold, range_one, range_two, range_four]
  have hy : mat_sub [[mx],[my]] [[mx],[my]] = [[(0:ℝ)],[0]] := by
    norm_num [mat_sub, mget, range_one, range_two]
  have hHP : mat_mul [[(1:ℝ),0,0,0],[0,1,0,0]]
      [[2+q,0,1,0],[0,2+q,0,1],[1,0,1+q,0],[0,1,0,1+q]] =
      .ok [[2+q,0,1,0],[0,2+q,0,1]] := by
    norm_num [mat_mul, mget, sumFold, range_two, range_four]
  have hHt : mat_transpose [[(1:ℝ),0,0,0],[0,1,0,0]] =
      [[(1:ℝ),0],[0,1],[0,0],[0,0]] := by
    norm_num [mat_transpose, range_two, range_four]
  have hHPHt : mat_mul [[2+q,0,1,0],[0,2+q,0,1]] [[(1:ℝ),0],[0,1],[0,0],[0,0]] =
      .ok [[2+q,0],[0,2+q]] := by
    norm_num [mat_mul, mget, sumFold, range_two, range_four]
  have hS : mat_add [[2+q,0],[0,2+q]] [[r,0],[0,r]] = [[2+q+r,0],[0,2+q+r]] := by
    norm_num [mat_add, mget, range_two]
  have hPHt : mat_mul [[2+q,0,1,0],[0,2+q,0,1],[1,0,1+q,0],[0,1,0,1+q]]
      [[(1:ℝ),0],[0,1],[0,0],[0,0]] =
      .ok [[2+q,0],[0,2+q],[1,0],[0,1]] := by
    norm_num [mat_mul, mget, sumFold, range_two, range_four]
  have hSinv : mat_inv_2x2 [[2+q+r,0],[0,2+q+r]] =
      .ok [[(2+q+r)⁻¹,0],[0,(2+q+r)⁻¹]] := by
    simp only [mat_inv_2x2, mget]
    norm_num [hsne]
  have hK : mat_mul [[2+q,0],[0,2+q],[(1:ℝ),0],[0,1]] [[(2+q+r)⁻¹,0],[0,(2+q+r)⁻¹]] =
      .ok [[(2+q)*(2+q+r)⁻¹,0],[0,(2+q)*(2+q+r)⁻¹],[(2+q+r)⁻¹,0],[0,(2+q+r)⁻¹]] := by
    norm_num [mat_mul, mget, sumFold, range_two, range_four]
  have hKy : mat_mul [[(2+q)*(2+q+r)⁻¹,0],[0,(2+q)*(2+q+r)⁻¹],[(2+q+r)⁻¹,0],[0,(2+q+r)⁻¹]]
      [[(0:ℝ)],[0]] = .ok [[(0:ℝ)],[0],[0],[0]] := by
    norm_num [mat_mul, mget, sumFold, range_one, range_two, range_four]
  have hxnew : mat_add [[mx],[my],[(0:ℝ)],[0]] [[(0:ℝ)],[0],[0],[0]] =
      [[mx],[my],[(0:ℝ)],[0]] := by
    norm_num [mat_add, mget, range_one, range_four]
  have hKH : mat_mul [[(2+q)*(2+q+r)⁻¹,0],[0,(2+q)*(2+q+r)⁻¹],[(2+q+r)⁻¹,0],[0,(2+q+r)⁻¹]]
      [[(1:ℝ),0,0,0],[0,1,0,0]] =
      .ok [[(2+q)*(2+q+r)⁻¹,0,0,0],[0,(2+q)*(2+q+r)⁻¹,0,0],[(2+q+r)⁻¹,0,0,0],[0,(2+q+r)⁻¹,0,0]] := by
    norm_num [mat_mul, mget, sumFold, range_two, range_four]
  have hImKH : mat_sub [[(1:ℝ),0,0,0],[0,1,0,0],[0,0,1,0],[0,0,0,1]]
      [[(2+q)*(2+q+r)⁻¹,0,0,0],[0,(2+q)*(2+q+r)⁻¹,0,0],[(2+q+r)⁻¹,0,0,0],[0,(2+q+r)⁻¹,0,0]] =
      [[1-(2+q)*(2+q+r)⁻¹,0,0,0],[0,1-(2+q)*(2+q+r)⁻¹,0,0],[-(2+q+r)⁻¹,0,1,0],[0,-(2+q+r)⁻¹,0,1]] := by
    norm_num [mat_sub, mget, range_four]
  have hPnew := mat_mul_ok
    [[1-(2+q)*(2+q+r)⁻¹,0,0,0],[0,1-(2+q)*(2+q+r)⁻¹,0,0],[-(2+q+r)⁻¹,0,1,0],[0,-(2+q+r)⁻¹,0,1]]
    [[2+q,0,1,0],[0,2+q,0,1],[1,0,1+q,0],[0,1,0,1+q]] (by norm_num)
  have hm0 : mget [[mx],[my],[(0:ℝ)],[0]] 0 0 = mx := by norm_num [mget]
  have hm1 : mget [[mx],[my],[(0:ℝ)],[0]] 1 0 = my := by norm_num [mget]
  rw [h_init]
  simp only [applyKalmanFilter, jsDt]
  norm_num [hset, hx_pred, hAP, hAt, hAPAt, hP_pred, hHx, hy, hHP, hHt, hHPHt, hS,
    hPHt, hSinv, hK, hKy, hxnew, hKH, hImKH, hPnew, hm0, hm1, hI4,
    ebind_ok, epure_eq, emap_ok, Except.map]

/-- Witness for C2 at a concrete first call. -/
theorem C2_kalman_first_estimate_witness :
    (applyKalmanFilter (initialKalmanFilter 0 0) ⟨3, 4⟩ 7).1.map Prod.fst =
      Except.ok (⟨3, 4⟩ : Coordinates) :=
  C2_kalman_first_estimate 0 0 3 4 7 le_rfl le_rfl

/-! ### C10: the UKF velocity/heading bootstrap -/

/-- C10 counterexample: on a call whose state has `last_timestamp` set to `0`
(a set, but JS-falsy, timestamp) with stored velocity exactly 0 and a
measurement 5 units away from `last_measurement`, the code does not re-seed:
the caller's `x` still reads 0 for velocity and heading after the call, while
the claimed re-seeded speed `|measurement - last_measurement| / dt` is
`5 ≠ 0`. -/
theorem C10_counterexample :
    (applyUKF { initialUKF 1 1 with lastTimestamp := some 0, lastMeasurement := some ⟨0, 0⟩ } ⟨3, 4⟩ 15).2.x = (initialUKF 1 1).x ∧
    mget (applyUKF { initialUKF 1 1 with lastTimestamp := some 0, lastMeasurement := some ⟨0, 0⟩ } ⟨3, 4⟩ 15).2.x 2 0 = 0 ∧
    mget (applyUKF { initialUKF 1 1 with lastTimestamp := some 0, lastMeasurement := some ⟨0, 0⟩ } ⟨3, 4⟩ 15).2.x 3 0 = 0 ∧
    Real.sqrt (((3 : ℝ) - 0) * (3 - 0) + ((4 : ℝ) - 0) * (4 - 0)) /
      jsDt (some 0) 15 = 5 ∧ (5 : ℝ) ≠ 0 := by
  have h2 : (applyUKF { initialUKF 1 1 with lastTimestamp := some 0, lastMeasurement := some (⟨0, 0⟩ : Coordinates) } ⟨3, 4⟩ 15).2.x =
      (initialUKF 1 1).x := by
    simp only [applyUKF]
    rw [if_neg]
    rintro ⟨htr, -⟩
    simp [jsTruthy] at htr
  refine ⟨h2, ?_, ?_, ?_, by norm_num⟩
  · rw [h2]
    simp [initialUKF, mget]
  · rw [h2]
    simp [initialUKF, mget]
  · have h25 : Real.sqrt (((3 : ℝ) - 0) * (3 - 0) + ((4 : ℝ) - 0) * (4 - 0)) = 5 := by
      rw [show ((3 : ℝ) - 0) * (3 - 0) + ((4 : ℝ) - 0) * (4 - 0) = 5 ^ 2 by norm_num]
      exact Real.sqrt_sq (by norm_num)
    rw [h25]
    norm_num [jsDt]

/-- C10 (amended): on every `applyUKF` call whose state has a stored
measurement, a stored **nonzero** timestamp, and stored velocity exactly 0,
the call re-seeds speed `|measurement - last_measurement| / dt` and heading
`atan2 dy dx` into the caller's `x` and then still runs the full
predict/update cycle (`ukfCycle`) on the re-seeded state in that same call;
with a stored timestamp of exactly 0 the re-seed is skipped (JS falsiness),
as the counterexample shows. -/
theorem C10_ukf_bootstrap (f : UKFInstance) (lm mv : Coordinates) (now t : ℝ)
    (hlm : f.lastMeasurement = some lm) (ht : f.lastTimestamp = some t)
    (ht0 : t ≠ 0) (hv : mget f.x 2 0 = 0) :
    applyUKF f mv now =
      (ukfCycle { f with x := (setEntry (setEntry f.x 2 0
          (Real.sqrt ((mv.x - lm.x) * (mv.x - lm.x) + (mv.y - lm.y) * (mv.y - lm.y)) /
            ((now - t) / 15))) 3 0 (atan2 (mv.y - lm.y) (mv.x - lm.x))) }
        mv ((now - t) / 15) now,
       { f with x := (setEntry (setEntry f.x 2 0
          (Real.sqrt ((mv.x - lm.x) * (mv.x - lm.x) + (mv.y - lm.y) * (mv.y - lm.y)) /
            ((now - t) / 15))) 3 0 (atan2 (mv.y - lm.y) (mv.x - lm.x))) }) := by
  have hdt : jsDt f.lastTimestamp now = (now - t) / 15 := by
    rw [ht]
    simp [jsDt, ht0]
  have htr : jsTruthy f.lastTimestamp := by
    rw [ht]
    simpa [jsTruthy] using ht0
  simp only [applyUKF, hlm, hdt]
  rw [if_pos ⟨htr, hv⟩]

/-- Witness for C10 (amended) at a concrete second call. -/
theorem C10_ukf_bootstrap_witness :
    (applyUKF { initialUKF 1 1 with lastTimestamp := some 1, lastMeasurement := some ⟨0, 0⟩ } ⟨3, 4⟩ 16).2.x =
      setEntry (setEntry (initialUKF 1 1).x 2 0
        (Real.sqrt (((3 : ℝ) - 0) * (3 - 0) + ((4 : ℝ) - 0) * (4 - 0)) / ((16 - 1) / 15)))
        3 0 (atan2 ((4 : ℝ) - 0) ((3 : ℝ) - 0)) := by
  have h := C10_ukf_bootstrap
    { initialUKF 1 1 with lastTimestamp := some 1, lastMeasurement := some ⟨0, 0⟩ }
    ⟨0, 0⟩ ⟨3, 4⟩ 16 1 rfl rfl (by norm_num) (by simp [initialUKF, mget])
  rw [h]

/-! ### C5: the Cholesky decomposition never fails -/

lemma jsGrow_succ {α : Type} (g : List α → ℕ → α) (m : ℕ) :
    jsGrow g (m + 1) = jsGrow g m ++ [g (jsGrow g m) m] := by
  unfold jsGrow
  rw [List.range_succ, List.foldl_append]
  rfl

lemma jsGrow_length {α : Type} (g : List α → ℕ → α) (m : ℕ) :
    (jsGrow g m).length = m := by
  induction m with
  | zero => rfl
  | succ m ih =>
    rw [jsGrow_succ]
    simp [ih]

lemma jsGrow_getD {α : Type} (g : List α → ℕ → α) (m i : ℕ) (d : α) (h : i < m) :
    (jsGrow g m).getD i d = g (jsGrow g i) i := by
  induction m with
  | zero => omega
  | succ m ih =>
    rw [jsGrow_succ]
    rcases Nat.lt_or_ge i m with hm | hm
    · rw [List.getD_append _ _ _ _ (by rw [jsGrow_length]; exact hm)]
      exact ih hm
    · have hi : i = m := by omega
      subst hi
      rw [List.getD_append_right _ _ _ _ (by rw [jsGrow_length])]
      simp [jsGrow_length]

lemma jsGrow_mem {α : Type} (g : List α → ℕ → α) (m : ℕ) (P : α → Prop)
    (hP : ∀ acc (i : ℕ), i < m → P (g acc i)) : ∀ row ∈ jsGrow g m, P row := by
  induction m with
  | zero =>
    intro row hr
    simp [jsGrow] at hr
  | succ m ih =>
    intro row hr
    rw [jsGrow_succ] at hr
    rcases List.mem_append.mp hr with h1 | h2
    · exact ih (fun acc i hi => hP acc i (by omega)) row h1
    · rw [List.mem_singleton.mp h2]
      exact hP _ m (by omega)

lemma sumFold_congr (n : ℕ) (f g : ℕ → ℝ) (h : ∀ k, k < n → f k = g k) :
    sumFold n f = sumFold n g := by
  rw [sumFold_eq_sum, sumFold_eq_sum]
  exact Finset.sum_congr rfl fun k hk => h k (Finset.mem_range.mp hk)

lemma cholRowEntry_diag (A Lacc : Mat) (i : ℕ) (r : List ℝ) :
    cholRowEntry A Lacc i i r =
      (if 0 < mget A i i - sumFold i (fun k => r.getD k 0 * r.getD k 0)
       then Real.sqrt (mget A i i - sumFold i (fun k => r.getD k 0 * r.getD k 0))
       else 0) := by
  unfold cholRowEntry
  rw [if_neg (lt_irrefl i), if_pos rfl]

lemma cholRowEntry_off (A Lacc : Mat) (i j : ℕ) (r : List ℝ) (hji : j < i) :
    cholRowEntry A Lacc i j r =
      (if mget Lacc j j = 0 then 0
       else 1 / mget Lacc j j *
        (mget A i j - sumFold j (fun k => r.getD k 0 * mget Lacc j k))) := by
  unfold cholRowEntry
  rw [if_neg (by omega : ¬ i < j), if_neg (by omega : ¬ i = j)]

lemma mat_cholesky_row (A : Mat) (i : ℕ) (h : i < A.length) :
    (mat_cholesky A).getD i [] = cholRow A (cholPrefix A i) i :=
  jsGrow_getD _ _ _ _ h

lemma cholPrefix_row (A : Mat) (i j : ℕ) (hj : j < i) (hjn : j < A.length) :
    (cholPrefix A i).getD j [] = (mat_cholesky A).getD j [] := by
  unfold cholPrefix mat_cholesky
  rw [jsGrow_getD _ _ _ _ hj, jsGrow_getD _ _ _ _ hjn]

lemma cholRow_getD (A Lacc : Mat) (i j : ℕ) (h : j < A.length) :
    (cholRow A Lacc i).getD j 0 =
      cholRowEntry A Lacc i j (jsGrow (fun r j' => cholRowEntry A Lacc i j' r) j) :=
  jsGrow_getD _ _ _ _ h

/-- Entries of the partial row agree with entries of the finished Cholesky
factor.  `hk : k < i` keeps the read inside the part of row `i` that is
already built. -/
lemma chol_rowPrefix_getD (A : Mat) (i m k : ℕ) (hk : k < m) (hkn : k < A.length)
    (hin : i < A.length) :
    (jsGrow (fun r j' => cholRowEntry A (cholPrefix A i) i j' r) m).getD k 0 =
      mget (mat_cholesky A) i k := by
  rw [jsGrow_getD _ _ _ _ hk]
  unfold mget
  rw [mat_cholesky_row A i hin, cholRow_getD A _ i k hkn]

/-- The diagonal Cholesky entry is the clamped square root of the radicand,
stated over the finished factor. -/
lemma mat_cholesky_diag (A : Mat) (i : ℕ) (h : i < A.length) :
    mget (mat_cholesky A) i i =
      (if 0 < mget A i i -
          sumFold i (fun k => mget (mat_cholesky A) i k * mget (mat_cholesky A) i k)
       then Real.sqrt (mget A i i -
          sumFold i (fun k => mget (mat_cholesky A) i k * mget (mat_cholesky A) i k))
       else 0) := by
  have hrow : mget (mat_cholesky A) i i =
      cholRowEntry A (cholPrefix A i) i i
        (jsGrow (fun r j' => cholRowEntry A (cholPrefix A i) i j' r) i) := by
    unfold mget
    rw [mat_cholesky_row A i h, cholRow_getD A _ i i h]
  have hsum : sumFold i (fun k =>
      (jsGrow (fun r j' => cholRowEntry A (cholPrefix A i) i j' r) i).getD k 0 *
      (jsGrow (fun r j' => cholRowEntry A (cholPrefix A i) i j' r) i).getD k 0) =
      sumFold i (fun k => mget (mat_cholesky A) i k * mget (mat_cholesky A) i k) := by
    apply sumFold_congr
    intro k hk
    rw [chol_rowPrefix_getD A i i k hk (by omega) h]
  rw [hrow, cholRowEntry_diag, hsum]

/-- A below-diagonal Cholesky entry, stated over the finished factor: `0` when
the pivot above it is `0` (the skip), the usual quotient otherwise. -/
lemma mat_cholesky_offdiag (A : Mat) (i j : ℕ) (hji : j < i) (hi : i < A.length) :
    mget (mat_cholesky A) i j =
      (if mget (mat_cholesky A) j j = 0 then 0
       else 1 / mget (mat_cholesky A) j j *
        (mget A i j -
          sumFold j (fun k => mget (mat_cholesky A) i k * mget (mat_cholesky A) j k))) := by
  have hjn : j < A.length := by omega
  have hrow : mget (mat_cholesky A) i j =
      cholRowEntry A (cholPrefix A i) i j
        (jsGrow (fun r j' => cholRowEntry A (cholPrefix A i) i j' r) j) := by
    unfold mget
    rw [mat_cholesky_row A i hi, cholRow_getD A _ i j hjn]
  have hPi : ∀ k, mget (cholPrefix A i) j k = mget (mat_cholesky A) j k := by
    intro k
    unfold mget
    rw [cholPrefix_row A i j hji hjn]
  have hsum : sumFold j (fun k =>
      (jsGrow (fun r j' => cholRowEntry A (cholPrefix A i) i j' r) j).getD k 0 *
        mget (cholPrefix A i) j k) =
      sumFold j (fun k => mget (mat_cholesky A) i k * mget (mat_cholesky A) j k) := by
    apply sumFold_congr
    intro k hk
    rw [chol_rowPrefix_getD A i j k hk (by omega) hi, hPi k]
  rw [hrow, cholRowEntry_off A (cholPrefix A i) i j _ hji, hsum, hPi j]

/-- C5: `mat_cholesky` never fails on any square input: it always returns an
`n x n` matrix (`n = A.length`); when the diagonal radicand
`A[i][i] - sum` is not positive the diagonal entry is set to `0` instead of
raising an error (and is the real square root of the radicand otherwise); and
when a pivot `L[j][j]` is `0`, the entries below it are skipped and left at
`0` rather than dividing by zero. -/
theorem C5_cholesky_total (A : Mat) :
    ((mat_cholesky A).length = A.length ∧
      ∀ row ∈ mat_cholesky A, row.length = A.length) ∧
    (∀ i, i < A.length →
      (mget A i i -
          sumFold i (fun k => mget (mat_cholesky A) i k * mget (mat_cholesky A) i k) ≤ 0 →
        mget (mat_cholesky A) i i = 0) ∧
      (0 < mget A i i -
          sumFold i (fun k => mget (mat_cholesky A) i k * mget (mat_cholesky A) i k) →
        mget (mat_cholesky A) i i =
          Real.sqrt (mget A i i -
            sumFold i (fun k => mget (mat_cholesky A) i k * mget (mat_cholesky A) i k)))) ∧
    (∀ i j, j < i → i < A.length → mget (mat_cholesky A) j j = 0 →
      mget (mat_cholesky A) i j = 0) := by
  refine ⟨⟨jsGrow_length _ _, ?_⟩, ?_, ?_⟩
  · apply jsGrow_mem
    intro acc i _
    exact jsGrow_length _ _
  · intro i hi
    constructor
    · intro hrad
      rw [mat_cholesky_diag A i hi, if_neg (by linarith)]
    · intro hrad
      rw [mat_cholesky_diag A i hi, if_pos hrad]
  · intro i j hji hi hpiv
    rw [mat_cholesky_offdiag A i j hji hi, if_pos hpiv]

/-- Witness for C5: a negative radicand is clamped to a `0` diagonal entry. -/
theorem C5_cholesky_total_witness :
    mget (mat_cholesky [[(-1 : ℝ)]]) 0 0 = 0 :=
  ((C5_cholesky_total [[(-1 : ℝ)]]).2.1 0 (by norm_num)).1
    (by norm_num [mget, sumFold])

end
